import Mathlib

/-!
Verification of the unused-symbol classification algorithm (`src/index.ts`).

The embedding follows the source line by line.  External collaborators
(ts-morph, ts-morph-helpers) are modelled as data carried by the input:
each declaration records its identifier nodes, each identifier its
reference query result, each file its namespace-reference node count.
Helpers from files of the repository that are not among the sources
(`src/util.ts`, `src/log.ts`) are modelled from the spec and say so in
their doc comments.
-/

namespace Knip

/-- A canonical file path, as an ordered list of path components. -/
abbrev Path := List String

/-- Drops a leading prefix from a component list; `none` when it is not a prefix. -/
def dropPre : List String → List String → Option (List String)
  | [], l => some l
  | _ :: _, [] => none
  | a :: as, b :: bs => if a = b then dropPre as bs else none

/-- Modelled Node `path.relative(cwd, fp)` on component lists: strips the
working directory when it prefixes the path (the situation the program is
run in); other inputs are returned unchanged. -/
def pathRelative (cwd fp : Path) : Path :=
  (dropPre cwd fp).getD fp

/-- JavaScript `Set` built from a list: deduplication keeping the first
occurrence of each element, in insertion order. -/
def dedupKeep {α : Type} [DecidableEq α] : List α → List α
  | [] => []
  | a :: rest => a :: (dedupKeep rest).filter (fun b => b ≠ a)

/-- Lookup in a JavaScript-object-like association list (first match). -/
def lookupAssoc {α β : Type} [DecidableEq α] : List (α × β) → α → Option β
  | [], _ => none
  | (k, v) :: rest, key => if k = key then some v else lookupAssoc rest key

/-- Assignment `obj[key] = v` on a JavaScript-object-like association list:
replaces in place when the key exists, appends otherwise. -/
def updAssoc {α β : Type} [DecidableEq α] : List (α × β) → α → β → List (α × β)
  | [], key, v => [(key, v)]
  | (k, w) :: rest, key, v =>
    if k = key then (key, v) :: rest else (k, w) :: updAssoc rest key v

/-- An identifier node: its text and the result of `findReferences()` on it
(one entry per referenced symbol, each listing the file of every reference). -/
structure Identifier where
  text : String
  refs : List (List Path)
deriving DecidableEq

/-- The syntax kinds `run` discriminates on for identifier resolution. -/
inductive DeclKind
  | identifier
  | functionDecl
  | classDecl
  | typeAliasDecl
  | interfaceDecl
  | enumDecl
  | propertyAccess
  | other
deriving DecidableEq

/-- An exported declaration node.  `declId` models JavaScript object
identity (each declaration node carries a distinct id).  `selfIdent` is the
node itself when `kind = identifier`; `childIdents` are its identifier
children in order; `descendantIdents` its identifier descendants in
depth-first order.  `typeSig` models `getType` (spec section 6: the resolved
type-signature text when type-level, absent when value-level), and
`hasPublicTag` models `ts.getJSDocPublicTag`. -/
structure Declaration where
  declId : Nat
  kind : DeclKind
  selfIdent : Identifier
  childIdents : List Identifier
  descendantIdents : List Identifier
  typeSig : Option String
  hasPublicTag : Bool
deriving DecidableEq

/-- A source file: its path, its `getExportedDeclarations()` map (export
name to ordered declaration list, in map iteration order), and the length
of `findReferencingNamespaceNodes(file)` from ts-morph-helpers. -/
structure SourceFile where
  filePath : Path
  exportedDeclarations : List (String × List Declaration)
  namespaceRefNodeCount : Nat
deriving DecidableEq

/-- Modelled from the spec: `getType` (defined in `src/util.ts`, absent from
the sources) returns the resolved type-signature text when the declaration
is type-level and nothing when it is value-level (spec section 6). -/
def getType (declaration : Declaration) : Option String :=
  declaration.typeSig

/-- The `findReferencingNamespaceNodes(sourceFile).length` query result
(ts-morph-helpers, an external collaborator): the number of nodes in other
files referencing this file as a namespace object. -/
def findReferencingNamespaceNodes (sourceFile : SourceFile) : Nat :=
  sourceFile.namespaceRefNodeCount

/-- Modelled from the spec: `findDuplicateExportedNames` (ts-morph-helpers,
an external collaborator, spec section 4.2) groups exported names whose
declaration group resolves to one identical underlying declaration
(identity, not structure) and returns the groups of size at least two,
groups and names in detection order. -/
def findDuplicateExportedNames (sourceFile : SourceFile) : List (List String) :=
  let named := sourceFile.exportedDeclarations.filterMap
    (fun p => (p.2.head?).map (fun d => (p.1, d.declId)))
  let ids := dedupKeep (named.map (fun p => p.2))
  (ids.map (fun i => (named.filter (fun p => p.2 = i)).map (fun p => p.1))).filter
    (fun g => 2 ≤ g.length)

/-- An issue record: `{filePath, symbol, symbolType?, symbols?}`. -/
structure Issue where
  filePath : Path
  symbol : String
  symbolType : Option String := none
  symbols : Option (List String) := none
deriving DecidableEq

/-- The issue categories other than `files` (`Exclude<IssueType, 'files'>`). -/
inductive IssueKind
  | exports
  | types
  | duplicates
  | members
deriving DecidableEq

/-- One category of the issue set: relative file path to (symbol to issue). -/
abbrev IssueMap := List (Path × List (String × Issue))

/-- The `issues` record built by `run`. -/
structure Issues where
  files : List Path
  exports : IssueMap
  types : IssueMap
  duplicates : IssueMap
  members : IssueMap
deriving DecidableEq

/-- The `counters` record built by `run`. -/
structure Counters where
  files : Nat
  exports : Nat
  types : Nat
  duplicates : Nat
  members : Nat
  processed : Nat
deriving DecidableEq

/-- The enable flags of `configuration.include`. -/
structure IncludeFlags where
  files : Bool
  exports : Bool
  types : Bool
  members : Bool
  duplicates : Bool
deriving DecidableEq

/-- The recognized configuration options (`jsDocOptions.isReadPublicTag`
flattened into a field). -/
structure Configuration where
  cwd : Path
  isShowProgress : Bool
  include' : IncludeFlags
  isReadPublicTag : Bool
deriving DecidableEq

/-- The ambient data the closures inside `run` capture: configuration
fields plus `unusedProductionFiles.length` and `usedNonEntryFiles.length`. -/
structure Ctx where
  cwd : Path
  isShowProgress : Bool
  include' : IncludeFlags
  isReadPublicTag : Bool
  unusedLen : Nat
  usedNonEntryLen : Nat
deriving DecidableEq

/-- The numeric content of one progress render (`updateProcessingOutput`
lines 49 to 52): the counter, the total and the displayed percentage.  The
textual lines built from them via `getLine` (`src/log.ts`) are terminal
rendering, outside the model (spec section 6). -/
structure ProgressRender where
  counter : Nat
  total : Nat
  percentage : Nat
deriving DecidableEq

/-- The mutable state threaded through `run`: the issue set, the counters
and the log of progress renders performed so far. -/
structure RunState where
  issues : Issues
  counters : Counters
  renders : List ProgressRender
deriving DecidableEq

/-- `issues[issueType]` for a non-file category. -/
def Issues.getMap (i : Issues) : IssueKind → IssueMap
  | .exports => i.exports
  | .types => i.types
  | .duplicates => i.duplicates
  | .members => i.members

/-- Functional update of `issues[issueType]`. -/
def Issues.setMap (i : Issues) : IssueKind → IssueMap → Issues
  | .exports, m => { i with exports := m }
  | .types, m => { i with types := m }
  | .duplicates, m => { i with duplicates := m }
  | .members, m => { i with members := m }

/-- `counters[issueType]` for a non-file category. -/
def Counters.get (c : Counters) : IssueKind → Nat
  | .exports => c.exports
  | .types => c.types
  | .duplicates => c.duplicates
  | .members => c.members

/-- `counters[issueType]++` for a non-file category. -/
def Counters.incr (c : Counters) : IssueKind → Counters
  | .exports => { c with exports := c.exports + 1 }
  | .types => { c with types := c.types + 1 }
  | .duplicates => { c with duplicates := c.duplicates + 1 }
  | .members => { c with members := c.members + 1 }

/-- The optional-chaining lookup `issues[t][key]?.[symbol]` (lines 126 to 128). -/
def lookup2 (m : IssueMap) (key : Path) (symbol : String) : Option Issue :=
  match lookupAssoc m key with
  | none => none
  | some fileMap => lookupAssoc fileMap symbol

/-- `updateProcessingOutput` (lines 47 to 63): when progress display is
enabled, computes the counter, total and `Math.floor((counter / total) * 100)`
of the render it performs; `none` when disabled. -/
def updateProcessingOutput (ctx : Ctx) (counters : Counters) : Option ProgressRender :=
  if ctx.isShowProgress then
    let counter := ctx.unusedLen + counters.processed
    let total := ctx.unusedLen + ctx.usedNonEntryLen
    some { counter := counter, total := total, percentage := counter * 100 / total }
  else none

/-- `addIssue` (lines 65 to 72): stores the issue at
`issues[issueType][path.relative(cwd, filePath)][symbol]`, increments the
matching counter, and renders progress when enabled. -/
def addIssue (ctx : Ctx) (issueType : IssueKind) (issue : Issue) (st : RunState) : RunState :=
  let key := pathRelative ctx.cwd issue.filePath
  let m := st.issues.getMap issueType
  let fileMap := (lookupAssoc m key).getD []
  let issues2 := st.issues.setMap issueType (updAssoc m key (updAssoc fileMap issue.symbol issue))
  let counters2 := st.counters.incr issueType
  match updateProcessingOutput ctx counters2 with
  | none => { issues := issues2, counters := counters2, renders := st.renders }
  | some r => { issues := issues2, counters := counters2, renders := st.renders ++ [r] }

/-- The representative-identifier resolution of lines 105 to 121.
`getFirstChildByKindOrThrow` and `getLastChildByKindOrThrow` raise when no
identifier child exists; `getFirstDescendantByKind` returns `undefined`
silently. -/
def resolveIdentifier (declaration : Declaration) : Except Unit (Option Identifier) :=
  if declaration.kind = DeclKind.identifier then
    Except.ok (some declaration.selfIdent)
  else if declaration.kind = DeclKind.functionDecl ∨ declaration.kind = DeclKind.classDecl ∨
      declaration.kind = DeclKind.typeAliasDecl ∨ declaration.kind = DeclKind.interfaceDecl ∨
      declaration.kind = DeclKind.enumDecl then
    match declaration.childIdents.head? with
    | some identifier => Except.ok (some identifier)
    | none => Except.error ()
  else if declaration.kind = DeclKind.propertyAccess then
    match declaration.childIdents.getLast? with
    | some identifier => Except.ok (some identifier)
    | none => Except.error ()
  else
    Except.ok declaration.descendantIdents.head?

/-- The body of the per-declaration callback (lines 95 to 151): category
filter, public-tag opt-out, identifier resolution, already-reported guard,
reference query and classification. -/
def processDeclaration (ctx : Ctx) (sourceFile : SourceFile) (st : RunState)
    (declaration : Declaration) : Except Unit RunState :=
  let filePath := sourceFile.filePath
  let type := getType declaration
  if !ctx.include'.members && (!ctx.include'.types && type.isSome) then Except.ok st
  else if !ctx.include'.members && (!ctx.include'.exports && type.isNone) then Except.ok st
  else if ctx.isReadPublicTag && declaration.hasPublicTag then Except.ok st
  else
    match resolveIdentifier declaration with
    | Except.error e => Except.error e
    | Except.ok none => Except.ok st
    | Except.ok (some identifier) =>
      let identifierText := identifier.text
      if ctx.include'.exports && (lookup2 st.issues.exports filePath identifierText).isSome then
        Except.ok st
      else if ctx.include'.types && (lookup2 st.issues.types filePath identifierText).isSome then
        Except.ok st
      else if ctx.include'.members && (lookup2 st.issues.members filePath identifierText).isSome then
        Except.ok st
      else
        let refs := identifier.refs
        if refs.length = 0 then
          Except.ok (addIssue ctx IssueKind.exports { filePath := filePath, symbol := identifierText } st)
        else
          let refFiles := dedupKeep refs.flatten
          let isReferencedOnlyBySelf := refFiles.length = 1 ∧ refFiles.headD [] = sourceFile.filePath
          if isReferencedOnlyBySelf then
            if 0 < findReferencingNamespaceNodes sourceFile then
              Except.ok (addIssue ctx IssueKind.members { filePath := filePath, symbol := identifierText } st)
            else if type.isSome then
              Except.ok (addIssue ctx IssueKind.types
                { filePath := filePath, symbol := identifierText, symbolType := type } st)
            else
              Except.ok (addIssue ctx IssueKind.exports { filePath := filePath, symbol := identifierText } st)
          else Except.ok st

/-- The body of the per-duplicate-group callback (lines 84 to 87): one
`duplicates` issue per group, its symbol the names joined by a comma. -/
def addDuplicateIssue (ctx : Ctx) (filePath : Path) (st : RunState) (symbols : List String) : RunState :=
  addIssue ctx IssueKind.duplicates
    { filePath := filePath, symbol := String.intercalate "," symbols, symbols := some symbols } st

/-- `forEach` over a list with a body that may throw: the JavaScript
exception propagates and aborts the whole traversal. -/
def forEachE {α : Type} (f : RunState → α → Except Unit RunState) :
    RunState → List α → Except Unit RunState
  | st, [] => Except.ok st
  | st, a :: rest =>
    match f st a with
    | Except.error e => Except.error e
    | Except.ok st1 => forEachE f st1 rest

/-- `new Set([...exportDeclarations.values()].flat()).size` (line 91): the
number of distinct exported declaration nodes, identity given by `declId`. -/
def uniqueExportedSymbolCount (sourceFile : SourceFile) : Nat :=
  (dedupKeep (((sourceFile.exportedDeclarations.map (fun p => p.2)).flatten).map
    (fun d => d.declId))).length

/-- The body of the per-file callback (lines 76 to 155): duplicate-export
detection, the single-export skip (whose early `return` also skips the
`counters.processed++` of line 154), the per-declaration traversal, and the
processed-counter increment. -/
def processFile (ctx : Ctx) (st : RunState) (sourceFile : SourceFile) : Except Unit RunState :=
  let filePath := sourceFile.filePath
  let exportDeclarations := sourceFile.exportedDeclarations
  let st1 :=
    if ctx.include'.duplicates then
      (findDuplicateExportedNames sourceFile).foldl (addDuplicateIssue ctx filePath) st
    else st
  if ctx.include'.exports || ctx.include'.types || ctx.include'.members then
    if uniqueExportedSymbolCount sourceFile = 1 then Except.ok st1
    else
      match forEachE (fun s p => forEachE (processDeclaration ctx sourceFile) s p.2)
          st1 exportDeclarations with
      | Except.error e => Except.error e
      | Except.ok st2 =>
        Except.ok { st2 with counters := { st2.counters with processed := st2.counters.processed + 1 } }
  else
    Except.ok { st1 with counters := { st1.counters with processed := st1.counters.processed + 1 } }

/-- Modelled from the spec: `partitionSourceFiles` (defined in
`src/util.ts`, absent from the sources; spec section 4.1) splits an ordered
collection into the files belonging to the reference set, by canonical path
equality, and the rest, both sides preserving input order. -/
def partitionSourceFiles (files referenceSet : List SourceFile) :
    List SourceFile × List SourceFile :=
  (files.filter (fun f => referenceSet.any (fun g => g.filePath = f.filePath)),
   files.filter (fun f => !(referenceSet.any (fun g => g.filePath = f.filePath))))

/-- The capture of configuration and partition sizes by the closures of `run`. -/
def mkCtx (configuration : Configuration) (unusedLen usedNonEntryLen : Nat) : Ctx :=
  { cwd := configuration.cwd, isShowProgress := configuration.isShowProgress,
    include' := configuration.include', isReadPublicTag := configuration.isReadPublicTag,
    unusedLen := unusedLen, usedNonEntryLen := usedNonEntryLen }

/-- `run` (lines 11 to 161), taking the project enumeration results of the
external engine (`entryFiles`, `productionFiles` with dependencies resolved,
and `projectFiles`) as inputs: partitions the file set, reports unused files,
and when any non-file category is enabled traverses every used non-entry
file.  A throw inside the traversal aborts the run. -/
def run (configuration : Configuration) (entryFiles productionFiles projectFiles : List SourceFile) :
    Except Unit RunState :=
  let part1 := partitionSourceFiles projectFiles productionFiles
  let usedProductionFiles := part1.1
  let unusedProductionFiles := part1.2
  let usedNonEntryFiles := (partitionSourceFiles usedProductionFiles entryFiles).2
  let files := dedupKeep (unusedProductionFiles.map (fun f => f.filePath))
  let issues : Issues :=
    { files := files, exports := [], types := [], duplicates := [], members := [] }
  let counters : Counters :=
    { files := files.length, exports := 0, types := 0, duplicates := 0, members := 0,
      processed := files.length }
  let ctx := mkCtx configuration unusedProductionFiles.length usedNonEntryFiles.length
  let st0 : RunState := { issues := issues, counters := counters, renders := [] }
  if configuration.include'.exports || configuration.include'.types ||
      configuration.include'.members || configuration.include'.duplicates then
    forEachE (processFile ctx) st0 usedNonEntryFiles
  else
    Except.ok st0

/-! ## Helper lemmas about the container operations -/

theorem mem_dedupKeep {α : Type} [DecidableEq α] {a : α} {l : List α} :
    a ∈ dedupKeep l ↔ a ∈ l := by
  induction l with
  | nil => simp [dedupKeep]
  | cons b rest ih =>
    simp only [dedupKeep, List.mem_cons, List.mem_filter, decide_eq_true_eq, ih]
    by_cases hab : a = b <;> simp [hab]

theorem dedupKeep_all_eq {α : Type} [DecidableEq α] {a : α} {l : List α}
    (hne : l ≠ []) (hall : ∀ x ∈ l, x = a) : dedupKeep l = [a] := by
  cases l with
  | nil => exact absurd rfl hne
  | cons b rest =>
    have hb : b = a := hall b (List.mem_cons_self b rest)
    subst hb
    simp only [dedupKeep, List.cons.injEq, true_and]
    rw [List.filter_eq_nil_iff]
    intro x hx
    have hx2 : x = b := hall x (List.mem_cons_of_mem _ (mem_dedupKeep.mp hx))
    simp [hx2]

theorem lookupAssoc_updAssoc_self {α β : Type} [DecidableEq α] {m : List (α × β)} {k : α} {v : β} :
    lookupAssoc (updAssoc m k v) k = some v := by
  induction m with
  | nil => simp [updAssoc, lookupAssoc]
  | cons p rest ih =>
    obtain ⟨k1, v1⟩ := p
    by_cases h : k1 = k <;> simp [updAssoc, lookupAssoc, h, ih]

theorem lookupAssoc_updAssoc_other {α β : Type} [DecidableEq α] {m : List (α × β)}
    {k k' : α} {v : β} (h : k' ≠ k) :
    lookupAssoc (updAssoc m k v) k' = lookupAssoc m k' := by
  induction m with
  | nil => simp [updAssoc, lookupAssoc, Ne.symm h]
  | cons p rest ih =>
    obtain ⟨k1, v1⟩ := p
    by_cases h1 : k1 = k
    · subst h1
      simp [updAssoc, lookupAssoc, Ne.symm h]
    · by_cases h2 : k1 = k' <;> simp [updAssoc, lookupAssoc, h1, h2, h, ih]

/-! ## Helper lemmas about issue-set and counter access -/

theorem getMap_setMap_self (i : Issues) (t : IssueKind) (m : IssueMap) :
    (i.setMap t m).getMap t = m := by
  cases t <;> rfl

theorem getMap_setMap_other (i : Issues) {t t' : IssueKind} (m : IssueMap) (h : t' ≠ t) :
    (i.setMap t m).getMap t' = i.getMap t' := by
  cases t <;> cases t' <;> simp_all [Issues.setMap, Issues.getMap]

theorem setMap_files (i : Issues) (t : IssueKind) (m : IssueMap) :
    (i.setMap t m).files = i.files := by
  cases t <;> rfl

theorem incr_processed (c : Counters) (t : IssueKind) : (c.incr t).processed = c.processed := by
  cases t <;> rfl

theorem incr_files (c : Counters) (t : IssueKind) : (c.incr t).files = c.files := by
  cases t <;> rfl

theorem get_incr_self (c : Counters) (t : IssueKind) : (c.incr t).get t = c.get t + 1 := by
  cases t <;> rfl

theorem get_incr_other (c : Counters) {t t' : IssueKind} (h : t' ≠ t) :
    (c.incr t).get t' = c.get t' := by
  cases t <;> cases t' <;> simp_all [Counters.incr, Counters.get]

/-! ## Helper lemmas about `addIssue` -/

theorem addIssue_issues (ctx : Ctx) (t : IssueKind) (issue : Issue) (st : RunState) :
    (addIssue ctx t issue st).issues =
      st.issues.setMap t (updAssoc (st.issues.getMap t) (pathRelative ctx.cwd issue.filePath)
        (updAssoc ((lookupAssoc (st.issues.getMap t) (pathRelative ctx.cwd issue.filePath)).getD [])
          issue.symbol issue)) := by
  simp only [addIssue]
  cases updateProcessingOutput ctx (st.counters.incr t) <;> rfl

theorem addIssue_counters (ctx : Ctx) (t : IssueKind) (issue : Issue) (st : RunState) :
    (addIssue ctx t issue st).counters = st.counters.incr t := by
  simp only [addIssue]
  cases updateProcessingOutput ctx (st.counters.incr t) <;> rfl

theorem addIssue_processed (ctx : Ctx) (t : IssueKind) (issue : Issue) (st : RunState) :
    (addIssue ctx t issue st).counters.processed = st.counters.processed := by
  rw [addIssue_counters, incr_processed]

theorem addIssue_getMap_other (ctx : Ctx) (t t' : IssueKind) (issue : Issue) (st : RunState)
    (h : t' ≠ t) : (addIssue ctx t issue st).issues.getMap t' = st.issues.getMap t' := by
  rw [addIssue_issues, getMap_setMap_other _ _ h]

theorem addIssue_files (ctx : Ctx) (t : IssueKind) (issue : Issue) (st : RunState) :
    (addIssue ctx t issue st).issues.files = st.issues.files := by
  rw [addIssue_issues, setMap_files]

theorem lookup2_addIssue_self (ctx : Ctx) (t : IssueKind) (issue : Issue) (st : RunState) :
    lookup2 ((addIssue ctx t issue st).issues.getMap t)
      (pathRelative ctx.cwd issue.filePath) issue.symbol = some issue := by
  rw [addIssue_issues, getMap_setMap_self]
  simp [lookup2, lookupAssoc_updAssoc_self]

theorem lookup2_addIssue_other (ctx : Ctx) (t : IssueKind) (issue : Issue) (st : RunState)
    {k : Path} {s : String}
    (h : k ≠ pathRelative ctx.cwd issue.filePath ∨ s ≠ issue.symbol) :
    lookup2 ((addIssue ctx t issue st).issues.getMap t) k s =
      lookup2 (st.issues.getMap t) k s := by
  rw [addIssue_issues, getMap_setMap_self]
  by_cases hk : k = pathRelative ctx.cwd issue.filePath
  · have hs : s ≠ issue.symbol := by
      rcases h with h | h
      · exact absurd hk h
      · exact h
    rw [hk]
    cases hl : lookupAssoc (st.issues.getMap t) (pathRelative ctx.cwd issue.filePath) with
    | none => simp [lookup2, hl, lookupAssoc_updAssoc_self, updAssoc, lookupAssoc, Ne.symm hs]
    | some fm => simp [lookup2, hl, lookupAssoc_updAssoc_self, lookupAssoc_updAssoc_other hs]
  · simp [lookup2, lookupAssoc_updAssoc_other hk]

/-! ## Structural lemmas about the traversal -/

/-- Every successful `processDeclaration` step either leaves the state
unchanged or performs exactly one `addIssue` into `exports`, `types` or
`members`. -/
theorem processDeclaration_cases {ctx : Ctx} {f : SourceFile} {st : RunState} {d : Declaration}
    {st' : RunState} (h : processDeclaration ctx f st d = Except.ok st') :
    st' = st ∨ ∃ t issue, (t = IssueKind.exports ∨ t = IssueKind.types ∨ t = IssueKind.members) ∧
      st' = addIssue ctx t issue st := by
  simp only [processDeclaration] at h
  repeat' split at h
  all_goals first
    | exact Except.noConfusion h
    | (cases h; exact Or.inl rfl)
    | (cases h; exact Or.inr ⟨_, _, by simp, rfl⟩)

theorem processDeclaration_frame {ctx : Ctx} {f : SourceFile} {st st' : RunState}
    {d : Declaration} (h : processDeclaration ctx f st d = Except.ok st') :
    st'.counters.processed = st.counters.processed ∧
    st'.issues.duplicates = st.issues.duplicates ∧
    st'.counters.duplicates = st.counters.duplicates ∧
    st'.issues.files = st.issues.files ∧
    st'.counters.files = st.counters.files := by
  rcases processDeclaration_cases h with rfl | ⟨t, issue, ht, rfl⟩
  · exact ⟨rfl, rfl, rfl, rfl, rfl⟩
  · have hne : IssueKind.duplicates ≠ t := by
      rcases ht with rfl | rfl | rfl <;> simp
    refine ⟨addIssue_processed .., ?_, ?_, addIssue_files .., ?_⟩
    · exact addIssue_getMap_other ctx t IssueKind.duplicates issue st hne
    · have := get_incr_other st.counters hne
      rw [addIssue_counters]
      exact this
    · rw [addIssue_counters, incr_files]

theorem forEachE_preserve {α : Type} {P : RunState → Prop}
    {f : RunState → α → Except Unit RunState}
    (hf : ∀ s a s', f s a = Except.ok s' → P s → P s') :
    ∀ (l : List α) (st st' : RunState), forEachE f st l = Except.ok st' → P st → P st' := by
  intro l
  induction l with
  | nil =>
    intro st st' h hP
    simp only [forEachE] at h
    injection h with h
    subst h
    exact hP
  | cons a rest ih =>
    intro st st' h hP
    simp only [forEachE] at h
    rcases hfa : f st a with e | st1
    · rw [hfa] at h
      exact Except.noConfusion h
    · rw [hfa] at h
      exact ih st1 st' h (hf st a st1 hfa hP)

theorem foldl_preserve {α : Type} {P : RunState → Prop} {f : RunState → α → RunState}
    (hf : ∀ s a, P s → P (f s a)) :
    ∀ (l : List α) (st : RunState), P st → P (l.foldl f st) := by
  intro l
  induction l with
  | nil => intro st h; simpa using h
  | cons a rest ih => intro st h; simpa using ih (f st a) (hf st a h)

/-- The condition under which the early `return` of line 92 fires for a
file: some of export, type or member analysis is enabled and the file has
exactly one distinct exported declaration. -/
def singleExportSkip (ctx : Ctx) (f : SourceFile) : Bool :=
  (ctx.include'.exports || ctx.include'.types || ctx.include'.members) &&
    decide (uniqueExportedSymbolCount f = 1)

theorem processFile_processed {ctx : Ctx} {st : RunState} {f : SourceFile} {st' : RunState}
    (h : processFile ctx st f = Except.ok st') :
    st'.counters.processed =
      st.counters.processed + (if singleExportSkip ctx f then 0 else 1) := by
  have hst1 : ∀ s0 : RunState,
      ((if ctx.include'.duplicates then
          (findDuplicateExportedNames f).foldl (addDuplicateIssue ctx f.filePath) s0
        else s0)).counters.processed = s0.counters.processed := by
    intro s0
    by_cases hd : ctx.include'.duplicates
    · simp only [hd, if_true]
      exact foldl_preserve (P := fun s => s.counters.processed = s0.counters.processed)
        (fun s a hs => by
          show (addDuplicateIssue ctx f.filePath s a).counters.processed = s0.counters.processed
          rw [addDuplicateIssue, addIssue_processed]
          exact hs) _ s0 rfl
    · simp [hd]
  simp only [processFile] at h
  cases hETM : (ctx.include'.exports || ctx.include'.types || ctx.include'.members) with
  | false =>
    rw [hETM] at h
    simp only [Bool.false_eq_true, if_false] at h
    injection h with h
    subst h
    simp only [singleExportSkip, hETM, Bool.false_and, Bool.false_eq_true, if_false]
    rw [hst1 st]
  | true =>
    rw [hETM] at h
    simp only [if_true] at h
    by_cases hone : uniqueExportedSymbolCount f = 1
    · rw [if_pos hone] at h
      injection h with h
      subst h
      rw [hst1 st]
      simp [singleExportSkip, hETM, hone]
    · rw [if_neg hone] at h
      rcases hfe : forEachE (fun s p => forEachE (processDeclaration ctx f) s p.2)
          (if ctx.include'.duplicates then
            (findDuplicateExportedNames f).foldl (addDuplicateIssue ctx f.filePath) st
          else st) f.exportedDeclarations with e | st2
      · rw [hfe] at h
        exact Except.noConfusion h
      · rw [hfe] at h
        injection h with h
        subst h
        have h2 : st2.counters.processed = st.counters.processed := by
          have := forEachE_preserve
            (P := fun s => s.counters.processed = st.counters.processed)
            (f := fun s p => forEachE (processDeclaration ctx f) s p.2)
            (fun s a s' hs hP => by
              show s'.counters.processed = st.counters.processed
              rw [← hP]
              exact forEachE_preserve
                (P := fun u => u.counters.processed = s.counters.processed)
                (fun u b u' hu hPu => by
                  show u'.counters.processed = s.counters.processed
                  rw [(processDeclaration_frame hu).1]
                  exact hPu)
                a.2 s s' hs rfl)
            f.exportedDeclarations _ st2 hfe (hst1 st)
          exact this
        simp [singleExportSkip, hETM, hone, h2]

theorem forEachE_processFile_processed {ctx : Ctx} :
    ∀ (l : List SourceFile) (st st' : RunState),
      forEachE (processFile ctx) st l = Except.ok st' →
      st'.counters.processed =
        st.counters.processed + l.countP (fun f => !(singleExportSkip ctx f)) := by
  intro l
  induction l with
  | nil =>
    intro st st' h
    simp only [forEachE] at h
    injection h with h
    subst h
    simp
  | cons f rest ih =>
    intro st st' h
    simp only [forEachE] at h
    rcases hp : processFile ctx st f with e | st1
    · rw [hp] at h
      exact Except.noConfusion h
    · rw [hp] at h
      have h1 := processFile_processed hp
      have h2 := ih st1 st' h
      rw [h2, h1, List.countP_cons]
      cases hs : singleExportSkip ctx f <;> simp [hs] <;> omega

/-! ## The render invariant used for the progress-percentage claim -/

/-- Invariant threaded through a run: the processed counter never drops
below its initial value, and every render performed so far shows the total
`unusedLen + usedNonEntryLen`, the floor percentage of its counter, and a
counter at least `unusedLen` plus the initial processed value. -/
def rendersWF (ctx : Ctx) (base : Nat) (st : RunState) : Prop :=
  base ≤ st.counters.processed ∧
  ∀ r ∈ st.renders, r.total = ctx.unusedLen + ctx.usedNonEntryLen ∧
    r.percentage = r.counter * 100 / r.total ∧ ctx.unusedLen + base ≤ r.counter

theorem addIssue_rendersWF {ctx : Ctx} {base : Nat} {t : IssueKind} {issue : Issue}
    {st : RunState} (h : rendersWF ctx base st) :
    rendersWF ctx base (addIssue ctx t issue st) := by
  obtain ⟨hp, hr⟩ := h
  simp only [addIssue]
  rcases hu : updateProcessingOutput ctx (st.counters.incr t) with _ | r
  · exact ⟨by rw [incr_processed]; exact hp, hr⟩
  · refine ⟨by rw [incr_processed]; exact hp, ?_⟩
    intro r' hr'
    rcases List.mem_append.mp hr' with hmem | hmem
    · exact hr r' hmem
    · have hr'' : r' = r := by simpa using hmem
      subst hr''
      simp only [updateProcessingOutput] at hu
      rcases hshow : ctx.isShowProgress with _ | _
      · rw [hshow] at hu
        simp at hu
      · rw [hshow] at hu
        simp only [if_true] at hu
        injection hu with hu
        subst hu
        refine ⟨rfl, rfl, ?_⟩
        rw [incr_processed]
        exact Nat.add_le_add_left hp _

theorem processDeclaration_rendersWF {ctx : Ctx} {base : Nat} {f : SourceFile}
    {st st' : RunState} {d : Declaration}
    (h : processDeclaration ctx f st d = Except.ok st') (hWF : rendersWF ctx base st) :
    rendersWF ctx base st' := by
  rcases processDeclaration_cases h with rfl | ⟨t, issue, _, rfl⟩
  · exact hWF
  · exact addIssue_rendersWF hWF

theorem processFile_rendersWF {ctx : Ctx} {base : Nat} {st st' : RunState} {f : SourceFile}
    (h : processFile ctx st f = Except.ok st') (hWF : rendersWF ctx base st) :
    rendersWF ctx base st' := by
  have hbump : ∀ s : RunState, rendersWF ctx base s →
      rendersWF ctx base
        { s with counters := { s.counters with processed := s.counters.processed + 1 } } := by
    intro s hs
    exact ⟨Nat.le_succ_of_le hs.1, hs.2⟩
  have hst1 : rendersWF ctx base
      (if ctx.include'.duplicates then
        (findDuplicateExportedNames f).foldl (addDuplicateIssue ctx f.filePath) st
      else st) := by
    by_cases hd : ctx.include'.duplicates
    · simp only [hd, if_true]
      exact foldl_preserve (P := rendersWF ctx base)
        (fun s a hs => by
          show rendersWF ctx base (addDuplicateIssue ctx f.filePath s a)
          exact addIssue_rendersWF hs) _ st hWF
    · simpa [hd] using hWF
  simp only [processFile] at h
  cases hETM : (ctx.include'.exports || ctx.include'.types || ctx.include'.members) with
  | false =>
    rw [hETM] at h
    simp only [Bool.false_eq_true, if_false] at h
    injection h with h
    subst h
    exact hbump _ hst1
  | true =>
    rw [hETM] at h
    simp only [if_true] at h
    by_cases hone : uniqueExportedSymbolCount f = 1
    · rw [if_pos hone] at h
      injection h with h
      subst h
      exact hst1
    · rw [if_neg hone] at h
      rcases hfe : forEachE (fun s p => forEachE (processDeclaration ctx f) s p.2)
          (if ctx.include'.duplicates then
            (findDuplicateExportedNames f).foldl (addDuplicateIssue ctx f.filePath) st
          else st) f.exportedDeclarations with e | st2
      · rw [hfe] at h
        exact Except.noConfusion h
      · rw [hfe] at h
        injection h with h
        subst h
        refine hbump _ ?_
        exact forEachE_preserve (P := rendersWF ctx base)
          (fun s a s' hs hP => by
            show rendersWF ctx base s'
            exact forEachE_preserve (P := rendersWF ctx base)
              (fun u b u' hu hPu => processDeclaration_rendersWF hu hPu)
              a.2 s s' hs hP)
          f.exportedDeclarations _ st2 hfe hst1

/-! ## Lemmas about the duplicate-export fold -/

theorem dupFold_counter (ctx : Ctx) (fp : Path) :
    ∀ (gs : List (List String)) (st : RunState),
      ((gs.foldl (addDuplicateIssue ctx fp) st).counters.duplicates) =
        st.counters.duplicates + gs.length := by
  intro gs
  induction gs with
  | nil => intro st; simp
  | cons g rest ih =>
    intro st
    rw [List.foldl_cons, ih]
    have : (addDuplicateIssue ctx fp st g).counters.duplicates = st.counters.duplicates + 1 := by
      rw [addDuplicateIssue, addIssue_counters]
      exact get_incr_self st.counters IssueKind.duplicates
    rw [this]
    simp
    omega

theorem dupFold_lookup_other (ctx : Ctx) (fp : Path) {k : Path} {s : String} :
    ∀ (gs : List (List String)) (st : RunState),
      (∀ g ∈ gs, String.intercalate "," g ≠ s) →
      lookup2 ((gs.foldl (addDuplicateIssue ctx fp) st).issues.duplicates) k s =
        lookup2 st.issues.duplicates k s := by
  intro gs
  induction gs with
  | nil => intro st _; simp
  | cons g rest ih =>
    intro st hno
    rw [List.foldl_cons, ih _ (fun g' hg' => hno g' (List.mem_cons_of_mem _ hg'))]
    have hs : s ≠ String.intercalate "," g :=
      Ne.symm (hno g (List.mem_cons_self g rest))
    exact lookup2_addIssue_other ctx IssueKind.duplicates _ st (Or.inr hs)

theorem dupFold_lookup_mem (ctx : Ctx) (fp : Path) :
    ∀ (gs : List (List String)) (st : RunState),
      gs.Pairwise (fun g h => String.intercalate "," g ≠ String.intercalate "," h) →
      ∀ g ∈ gs,
        lookup2 ((gs.foldl (addDuplicateIssue ctx fp) st).issues.duplicates)
            (pathRelative ctx.cwd fp) (String.intercalate "," g) =
          some { filePath := fp, symbol := String.intercalate "," g,
                 symbolType := none, symbols := some g } := by
  intro gs
  induction gs with
  | nil => intro st _ g hg; exact absurd hg (List.not_mem_nil g)
  | cons g0 rest ih =>
    intro st hpw g hg
    obtain ⟨hhead, htail⟩ := List.pairwise_cons.mp hpw
    rw [List.foldl_cons]
    rcases List.mem_cons.mp hg with rfl | hg'
    · rw [dupFold_lookup_other ctx fp rest _ (fun g' hg' => Ne.symm (hhead g' hg'))]
      exact lookup2_addIssue_self ctx IssueKind.duplicates _ st
    · exact ih _ htail g hg'

/-- The traversal after the duplicate-export block leaves the `duplicates`
map and counter unchanged. -/
theorem processFile_duplicates_frame {ctx : Ctx} {st st' : RunState} {f : SourceFile}
    (h : processFile ctx st f = Except.ok st') :
    st'.issues.duplicates =
      ((if ctx.include'.duplicates then
          (findDuplicateExportedNames f).foldl (addDuplicateIssue ctx f.filePath) st
        else st)).issues.duplicates ∧
    st'.counters.duplicates =
      ((if ctx.include'.duplicates then
          (findDuplicateExportedNames f).foldl (addDuplicateIssue ctx f.filePath) st
        else st)).counters.duplicates := by
  simp only [processFile] at h
  cases hETM : (ctx.include'.exports || ctx.include'.types || ctx.include'.members) with
  | false =>
    rw [hETM] at h
    simp only [Bool.false_eq_true, if_false] at h
    injection h with h
    subst h
    exact ⟨rfl, rfl⟩
  | true =>
    rw [hETM] at h
    simp only [if_true] at h
    by_cases hone : uniqueExportedSymbolCount f = 1
    · rw [if_pos hone] at h
      injection h with h
      subst h
      exact ⟨rfl, rfl⟩
    · rw [if_neg hone] at h
      rcases hfe : forEachE (fun s p => forEachE (processDeclaration ctx f) s p.2)
          (if ctx.include'.duplicates then
            (findDuplicateExportedNames f).foldl (addDuplicateIssue ctx f.filePath) st
          else st) f.exportedDeclarations with e | st2
      · rw [hfe] at h
        exact Except.noConfusion h
      · rw [hfe] at h
        injection h with h
        subst h
        have := forEachE_preserve
          (P := fun s => s.issues.duplicates =
              ((if ctx.include'.duplicates then
                  (findDuplicateExportedNames f).foldl (addDuplicateIssue ctx f.filePath) st
                else st)).issues.duplicates ∧
            s.counters.duplicates =
              ((if ctx.include'.duplicates then
                  (findDuplicateExportedNames f).foldl (addDuplicateIssue ctx f.filePath) st
                else st)).counters.duplicates)
          (fun s a s' hs hP => by
            show _ ∧ _
            refine ⟨?_, ?_⟩
            · rw [← hP.1]
              exact forEachE_preserve (P := fun u => u.issues.duplicates = s.issues.duplicates)
                (fun u b u' hu hPu => by
                  show u'.issues.duplicates = s.issues.duplicates
                  rw [(processDeclaration_frame hu).2.1]
                  exact hPu)
                a.2 s s' hs rfl
            · rw [← hP.2]
              exact forEachE_preserve (P := fun u => u.counters.duplicates = s.counters.duplicates)
                (fun u b u' hu hPu => by
                  show u'.counters.duplicates = s.counters.duplicates
                  rw [(processDeclaration_frame hu).2.2.1]
                  exact hPu)
                a.2 s s' hs rfl)
          f.exportedDeclarations _ st2 hfe ⟨rfl, rfl⟩
        exact this

/-! ## Concrete project fixtures used by witnesses and counterexamples -/

/-- The empty run state. -/
def stEmpty : RunState :=
  { issues := { files := [], exports := [], types := [], duplicates := [], members := [] },
    counters := { files := 0, exports := 0, types := 0, duplicates := 0, members := 0,
                  processed := 0 },
    renders := [] }

/-- Identifier `Foo` in file `b.ts`, referenced only from its own file. -/
def identFooB : Identifier := { text := "Foo", refs := [[["proj", "b.ts"]]] }

/-- A type-level declaration of `Foo` (an interface). -/
def declFooInterface : Declaration :=
  { declId := 1, kind := DeclKind.interfaceDecl, selfIdent := { text := "", refs := [] },
    childIdents := [identFooB], descendantIdents := [], typeSig := some "Foo",
    hasPublicTag := false }

/-- A value-level declaration of `Foo` merged with the interface. -/
def declFooFunction : Declaration :=
  { declId := 2, kind := DeclKind.functionDecl, selfIdent := { text := "", refs := [] },
    childIdents := [identFooB], descendantIdents := [], typeSig := none,
    hasPublicTag := false }

/-- A used non-entry file exporting one name bound to two merged declarations. -/
def fileB : SourceFile :=
  { filePath := ["proj", "b.ts"],
    exportedDeclarations := [("Foo", [declFooInterface, declFooFunction])],
    namespaceRefNodeCount := 0 }

/-- The entry file of the fixtures rooted at `proj`. -/
def fileA : SourceFile :=
  { filePath := ["proj", "a.ts"], exportedDeclarations := [], namespaceRefNodeCount := 0 }

/-- Configuration with export and type analysis enabled, rooted at `proj`. -/
def cfgC1 : Configuration :=
  { cwd := ["proj"], isShowProgress := false,
    include' := { files := true, exports := true, types := true, members := false,
                  duplicates := false },
    isReadPublicTag := false }

/-- A file exporting a single declaration under a single name. -/
def fileD : SourceFile :=
  { filePath := ["proj", "d.ts"],
    exportedDeclarations := [("bar",
      [{ declId := 7, kind := DeclKind.identifier, selfIdent := { text := "bar", refs := [] },
         childIdents := [], descendantIdents := [], typeSig := none, hasPublicTag := false }])],
    namespaceRefNodeCount := 0 }

/-! ## C1 -/

/-- C1: evaluating the run on a file whose one export name `Foo` is bound to
a merged type-level and value-level declaration pair, both referenced only
from their own file, produces an issue for (`b.ts`, `Foo`) under `types`
AND under `exports`: the already-reported guard looks issues up under the
absolute file path while `addIssue` stores them under the path relative to
`cwd`, so the guard never matches and the same (file, symbol) pair is
reported twice across the categories. -/
theorem C1_guard_ineffective :
    (run cfgC1 [fileA] [fileA, fileB] [fileA, fileB]).map (fun st =>
      ((lookup2 st.issues.types ["b.ts"] "Foo").isSome,
       (lookup2 st.issues.exports ["b.ts"] "Foo").isSome)) = Except.ok (true, true) := by
  rfl

/-! ## C2 -/

/-- C2 counterexample: `fileB` has exactly one deduplicated exported NAME,
yet the run does not skip it — it emits a `types` issue and an `exports`
issue for it, because the skip condition of line 92 counts distinct
exported declaration objects, not distinct names. -/
theorem C2_counterexample :
    (dedupKeep (fileB.exportedDeclarations.map (fun p => p.1))).length = 1 ∧
    (run cfgC1 [fileA] [fileA, fileB] [fileA, fileB]).map (fun st =>
      ((lookup2 st.issues.types ["b.ts"] "Foo").isSome,
       st.counters.types, st.counters.exports)) = Except.ok (true, 1, 1) :=
  ⟨rfl, rfl⟩

/-- C2 amended: when export, type or member analysis is enabled and the
file's exported declarations — deduplicated by object identity, not its
exported names — number exactly one, the file is skipped: the traversal
leaves the `exports`, `types` and `members` maps exactly as they were. -/
theorem C2_single_declaration_skip (ctx : Ctx) (st : RunState) (f : SourceFile)
    (hflag : (ctx.include'.exports || ctx.include'.types || ctx.include'.members) = true)
    (hone : uniqueExportedSymbolCount f = 1) :
    (processFile ctx st f).map
      (fun s => (s.issues.exports, s.issues.types, s.issues.members)) =
      Except.ok (st.issues.exports, st.issues.types, st.issues.members) := by
  have hdupP : ((if ctx.include'.duplicates then
        (findDuplicateExportedNames f).foldl (addDuplicateIssue ctx f.filePath) st
      else st)).issues.exports = st.issues.exports ∧
      ((if ctx.include'.duplicates then
        (findDuplicateExportedNames f).foldl (addDuplicateIssue ctx f.filePath) st
      else st)).issues.types = st.issues.types ∧
      ((if ctx.include'.duplicates then
        (findDuplicateExportedNames f).foldl (addDuplicateIssue ctx f.filePath) st
      else st)).issues.members = st.issues.members := by
    by_cases hd : ctx.include'.duplicates
    · simp only [hd, if_true]
      exact foldl_preserve (P := fun s => s.issues.exports = st.issues.exports ∧
          s.issues.types = st.issues.types ∧ s.issues.members = st.issues.members)
        (fun s a hs => by
          show (addDuplicateIssue ctx f.filePath s a).issues.exports = st.issues.exports ∧
            (addDuplicateIssue ctx f.filePath s a).issues.types = st.issues.types ∧
            (addDuplicateIssue ctx f.filePath s a).issues.members = st.issues.members
          rw [addDuplicateIssue]
          refine ⟨?_, ?_, ?_⟩
          · exact (addIssue_getMap_other ctx IssueKind.duplicates IssueKind.exports _ s
              (by simp)).trans hs.1
          · exact (addIssue_getMap_other ctx IssueKind.duplicates IssueKind.types _ s
              (by simp)).trans hs.2.1
          · exact (addIssue_getMap_other ctx IssueKind.duplicates IssueKind.members _ s
              (by simp)).trans hs.2.2)
        _ st ⟨rfl, rfl, rfl⟩
    · simp [hd]
  simp only [processFile, hflag, if_true, hone, if_pos]
  simp [Except.map, hdupP.1, hdupP.2.1, hdupP.2.2]

/-- C2 witness: the single-declaration file `fileD` is skipped, its maps
untouched. -/
theorem C2_witness :
    (processFile (mkCtx cfgC1 0 1) stEmpty fileD).map
      (fun s => (s.issues.exports, s.issues.types, s.issues.members)) =
      Except.ok (stEmpty.issues.exports, stEmpty.issues.types, stEmpty.issues.members) :=
  C2_single_declaration_skip (mkCtx cfgC1 0 1) stEmpty fileD (by rfl) (by rfl)

/-! ## C3 -/

/-- C3 counterexample: a run over exactly one used non-entry file (with no
unused files, so the processed counter starts at 0) ends with
`counters.processed = 0`, not initial + 1: the single-export skip `return`s
before the `counters.processed++` of line 154. -/
theorem C3_counterexample :
    (partitionSourceFiles (partitionSourceFiles [fileA, fileD] [fileA, fileD]).1
      [fileA]).2.length = 1 ∧
    (run cfgC1 [fileA] [fileA, fileD] [fileA, fileD]).map (fun st =>
      (st.counters.processed, st.counters.files)) = Except.ok (0, 0) :=
  ⟨rfl, rfl⟩

/-- C3 amended: when any non-file category is enabled, the run increments
the processed-file counter exactly once per used non-entry file EXCEPT the
files skipped by the single-export heuristic, which leave it unchanged:
the final value is its initial value (the deduplicated unused-file count)
plus the number of non-skipped used non-entry files. -/
theorem C3_processed_counts_unskipped (cfg : Configuration)
    (e p pr : List SourceFile) (st : RunState)
    (h : run cfg e p pr = Except.ok st)
    (hflag : (cfg.include'.exports || cfg.include'.types ||
      cfg.include'.members || cfg.include'.duplicates) = true) :
    st.counters.processed =
      (dedupKeep ((partitionSourceFiles pr p).2.map (fun f => f.filePath))).length +
      ((partitionSourceFiles (partitionSourceFiles pr p).1 e).2.countP
        (fun f => !(singleExportSkip
          (mkCtx cfg (partitionSourceFiles pr p).2.length
            (partitionSourceFiles (partitionSourceFiles pr p).1 e).2.length) f))) := by
  simp only [run, hflag, if_true] at h
  have := forEachE_processFile_processed _ _ _ h
  simpa using this

/-- C3 witness: the one-file fixture run, whose only file is skipped. -/
theorem C3_witness :
    stEmpty.counters.processed =
      (dedupKeep ((partitionSourceFiles [fileA, fileD] [fileA, fileD]).2.map
        (fun f => f.filePath))).length +
      ((partitionSourceFiles (partitionSourceFiles [fileA, fileD] [fileA, fileD]).1
        [fileA]).2.countP
        (fun f => !(singleExportSkip
          (mkCtx cfgC1 (partitionSourceFiles [fileA, fileD] [fileA, fileD]).2.length
            (partitionSourceFiles (partitionSourceFiles [fileA, fileD] [fileA, fileD]).1
              [fileA]).2.length) f))) :=
  C3_processed_counts_unskipped cfgC1 [fileA] [fileA, fileD] [fileA, fileD] stEmpty
    (by rfl) (by rfl)

/-! ## C4 -/

/-- C4: a declaration that passes the category and public-tag filters and
the already-reported guard, whose identifier's references all resolve to
the declaring file itself, is classified `members` whenever the file has at
least one referencing namespace node — whatever its type-level status
(`getType d` is unconstrained), so namespace-member status takes precedence
over type classification. -/
theorem C4_namespace_precedence (ctx : Ctx) (f : SourceFile) (st : RunState)
    (d : Declaration) (i : Identifier)
    (hf1 : (!ctx.include'.members && (!ctx.include'.types && (getType d).isSome)) = false)
    (hf2 : (!ctx.include'.members && (!ctx.include'.exports && (getType d).isNone)) = false)
    (hpub : (ctx.isReadPublicTag && d.hasPublicTag) = false)
    (hres : resolveIdentifier d = Except.ok (some i))
    (hg1 : (ctx.include'.exports && (lookup2 st.issues.exports f.filePath i.text).isSome) = false)
    (hg2 : (ctx.include'.types && (lookup2 st.issues.types f.filePath i.text).isSome) = false)
    (hg3 : (ctx.include'.members && (lookup2 st.issues.members f.filePath i.text).isSome) = false)
    (hne : i.refs.flatten ≠ [])
    (hself : ∀ p ∈ i.refs.flatten, p = f.filePath)
    (hns : 0 < findReferencingNamespaceNodes f) :
    processDeclaration ctx f st d =
      Except.ok (addIssue ctx IssueKind.members
        { filePath := f.filePath, symbol := i.text } st) := by
  have hlen : ¬(i.refs.length = 0) := by
    intro h0
    rw [List.length_eq_zero] at h0
    rw [h0] at hne
    exact hne rfl
  have hded : dedupKeep i.refs.flatten = [f.filePath] := dedupKeep_all_eq hne hself
  simp [processDeclaration, hf1, hf2, hpub, hres, hg1, hg2, hg3, hlen, hded, hns]

/-- Identifier `n`, self-referenced only, in the namespace-referenced file. -/
def identN : Identifier := { text := "n", refs := [[["p", "m.ts"]]] }

/-- A type-level declaration of `n`. -/
def declN : Declaration :=
  { declId := 41, kind := DeclKind.interfaceDecl, selfIdent := { text := "", refs := [] },
    childIdents := [identN], descendantIdents := [], typeSig := some "interface n",
    hasPublicTag := false }

/-- A file referenced as a namespace object by two nodes elsewhere. -/
def fileM : SourceFile :=
  { filePath := ["p", "m.ts"], exportedDeclarations := [("n", [declN])],
    namespaceRefNodeCount := 2 }

/-- C4 witness: the type-level declaration `n` of the namespace-referenced
file is classified `members`. -/
theorem C4_witness :
    processDeclaration (mkCtx cfgC1 0 1) fileM stEmpty declN =
      Except.ok (addIssue (mkCtx cfgC1 0 1) IssueKind.members
        { filePath := fileM.filePath, symbol := identN.text } stEmpty) :=
  C4_namespace_precedence (mkCtx cfgC1 0 1) fileM stEmpty declN identN
    (by rfl) (by rfl) (by rfl) (by rfl) (by rfl) (by rfl) (by rfl)
    (by decide) (by decide) (by decide)

/-! ## C5 -/

/-- C5: for a declaration that passes the filters and the guard, with a
resolved identifier: zero references classify it `exports`; references all
resolving to the declaring file with no namespace reference classify it
`types` when type-level (attaching the type signature as `symbolType`) and
`exports` otherwise; a reference outside the declaring file yields no issue
and leaves the state unchanged. -/
theorem C5_reference_classification (ctx : Ctx) (f : SourceFile) (st : RunState)
    (d : Declaration) (i : Identifier)
    (hf1 : (!ctx.include'.members && (!ctx.include'.types && (getType d).isSome)) = false)
    (hf2 : (!ctx.include'.members && (!ctx.include'.exports && (getType d).isNone)) = false)
    (hpub : (ctx.isReadPublicTag && d.hasPublicTag) = false)
    (hres : resolveIdentifier d = Except.ok (some i))
    (hg1 : (ctx.include'.exports && (lookup2 st.issues.exports f.filePath i.text).isSome) = false)
    (hg2 : (ctx.include'.types && (lookup2 st.issues.types f.filePath i.text).isSome) = false)
    (hg3 : (ctx.include'.members && (lookup2 st.issues.members f.filePath i.text).isSome) = false) :
    (i.refs = [] →
      processDeclaration ctx f st d =
        Except.ok (addIssue ctx IssueKind.exports
          { filePath := f.filePath, symbol := i.text } st)) ∧
    (i.refs.flatten ≠ [] → (∀ p ∈ i.refs.flatten, p = f.filePath) →
      findReferencingNamespaceNodes f = 0 →
      (∀ t, getType d = some t →
        processDeclaration ctx f st d =
          Except.ok (addIssue ctx IssueKind.types
            { filePath := f.filePath, symbol := i.text, symbolType := some t } st)) ∧
      (getType d = none →
        processDeclaration ctx f st d =
          Except.ok (addIssue ctx IssueKind.exports
            { filePath := f.filePath, symbol := i.text } st))) ∧
    ((∃ p ∈ i.refs.flatten, p ≠ f.filePath) →
      processDeclaration ctx f st d = Except.ok st) := by
  refine ⟨?_, ?_, ?_⟩
  · intro hz
    simp [processDeclaration, hf1, hf2, hpub, hres, hg1, hg2, hg3, hz]
  · intro hne hself hns0
    have hlen : ¬(i.refs.length = 0) := by
      intro h0
      rw [List.length_eq_zero] at h0
      rw [h0] at hne
      exact hne rfl
    have hded : dedupKeep i.refs.flatten = [f.filePath] := dedupKeep_all_eq hne hself
    constructor
    · intro t ht
      simp [processDeclaration, hf1, hf2, hpub, hres, hg1, hg2, hg3, hlen, hded, hns0, ht]
      intro hm htypes
      simp [hm, htypes, ht] at hf1
    · intro ht
      simp [processDeclaration, hf1, hf2, hpub, hres, hg1, hg2, hg3, hlen, hded, hns0, ht]
      intro hm hexp
      simp [hm, hexp, ht] at hf2
  · rintro ⟨q, hq, hqne⟩
    have hlen : ¬(i.refs.length = 0) := by
      intro h0
      rw [List.length_eq_zero] at h0
      rw [h0] at hq
      exact absurd hq (List.not_mem_nil q)
    have hcond : ¬((dedupKeep i.refs.flatten).length = 1 ∧
        ((dedupKeep i.refs.flatten).head?).getD [] = f.filePath) := by
      rintro ⟨h1, h2⟩
      have hmem : q ∈ dedupKeep i.refs.flatten := mem_dedupKeep.mpr hq
      cases hl : dedupKeep i.refs.flatten with
      | nil =>
        rw [hl] at h1
        simp at h1
      | cons x xs =>
        rw [hl] at h1 h2 hmem
        cases xs with
        | nil =>
          simp only [List.head?_cons, Option.getD_some] at h2
          rcases List.mem_singleton.mp hmem with rfl
          exact hqne h2
        | cons y ys => simp at h1
    simp [processDeclaration, hf1, hf2, hpub, hres, hg1, hg2, hg3, hlen]
    intro h1 h2
    exact absurd ⟨h1, h2⟩ hcond

/-- A value-level declaration of `z` whose identifier has no references. -/
def declZ : Declaration :=
  { declId := 51, kind := DeclKind.identifier, selfIdent := { text := "z", refs := [] },
    childIdents := [], descendantIdents := [], typeSig := none, hasPublicTag := false }

/-- The file exporting the unreferenced `z`. -/
def fileZ : SourceFile :=
  { filePath := ["p", "z.ts"], exportedDeclarations := [("z", [declZ])],
    namespaceRefNodeCount := 0 }

/-- C5 witness: the zero-reference declaration `z` is classified `exports`. -/
theorem C5_witness :
    processDeclaration (mkCtx cfgC1 0 1) fileZ stEmpty declZ =
      Except.ok (addIssue (mkCtx cfgC1 0 1) IssueKind.exports
        { filePath := fileZ.filePath, symbol := declZ.selfIdent.text } stEmpty) :=
  (C5_reference_classification (mkCtx cfgC1 0 1) fileZ stEmpty declZ declZ.selfIdent
    (by rfl) (by rfl) (by rfl) (by rfl) (by rfl) (by rfl) (by rfl)).1 (by rfl)

/-! ## C8 -/

/-- An anonymous function declaration: the function-declaration kind with
no identifier child. -/
def declAnon : Declaration :=
  { declId := 21, kind := DeclKind.functionDecl, selfIdent := { text := "", refs := [] },
    childIdents := [], descendantIdents := [], typeSig := none, hasPublicTag := false }

/-- A second, resolvable declaration under the same export name. -/
def declG : Declaration :=
  { declId := 22, kind := DeclKind.identifier, selfIdent := { text := "g", refs := [] },
    childIdents := [], descendantIdents := [], typeSig := none, hasPublicTag := false }

/-- A file whose export name `g` carries the anonymous declaration. -/
def fileG : SourceFile :=
  { filePath := ["proj", "g.ts"], exportedDeclarations := [("g", [declAnon, declG])],
    namespaceRefNodeCount := 0 }

/-- C8 counterexample: identifier resolution is not always silent — on a
function-declaration-kind node with no identifier child,
`getFirstChildByKindOrThrow` raises, `processDeclaration` propagates the
error, and the whole run aborts. -/
theorem C8_counterexample :
    processDeclaration (mkCtx cfgC1 0 1) fileG stEmpty declAnon = Except.error () ∧
    run cfgC1 [fileA] [fileA, fileG] [fileA, fileG] = Except.error () :=
  ⟨rfl, rfl⟩

/-- C8 amended: the silent skip applies exactly to the depth-first fallback
shape: a declaration of an un-special kind with no descendant identifier is
skipped with no issue and no error; but a named-declaration kind or a
member-access kind with no identifier child makes the resolution step raise
and abort. -/
theorem C8_resolution_fallthrough (ctx : Ctx) (f : SourceFile) (st : RunState)
    (d : Declaration)
    (hf1 : (!ctx.include'.members && (!ctx.include'.types && (getType d).isSome)) = false)
    (hf2 : (!ctx.include'.members && (!ctx.include'.exports && (getType d).isNone)) = false)
    (hpub : (ctx.isReadPublicTag && d.hasPublicTag) = false) :
    (d.kind = DeclKind.other → d.descendantIdents = [] →
      processDeclaration ctx f st d = Except.ok st) ∧
    ((d.kind = DeclKind.functionDecl ∨ d.kind = DeclKind.classDecl ∨
      d.kind = DeclKind.typeAliasDecl ∨ d.kind = DeclKind.interfaceDecl ∨
      d.kind = DeclKind.enumDecl) → d.childIdents = [] →
      processDeclaration ctx f st d = Except.error ()) ∧
    (d.kind = DeclKind.propertyAccess → d.childIdents = [] →
      processDeclaration ctx f st d = Except.error ()) := by
  refine ⟨?_, ?_, ?_⟩
  · intro hk hdesc
    simp [processDeclaration, hf1, hf2, hpub, resolveIdentifier, hk, hdesc]
  · intro hk hchild
    rcases hk with hk | hk | hk | hk | hk <;>
      simp [processDeclaration, hf1, hf2, hpub, resolveIdentifier, hk, hchild]
  · intro hk hchild
    simp [processDeclaration, hf1, hf2, hpub, resolveIdentifier, hk, hchild]

/-- A declaration of an un-special kind with no identifier anywhere below it. -/
def declNoIdent : Declaration :=
  { declId := 61, kind := DeclKind.other, selfIdent := { text := "", refs := [] },
    childIdents := [], descendantIdents := [], typeSig := none, hasPublicTag := false }

/-- C8 witness: the fallback-shape declaration with no descendant
identifier is skipped silently, leaving the state unchanged. -/
theorem C8_witness :
    processDeclaration (mkCtx cfgC1 0 1) fileG stEmpty declNoIdent = Except.ok stEmpty :=
  (C8_resolution_fallthrough (mkCtx cfgC1 0 1) fileG stEmpty declNoIdent
    (by rfl) (by rfl) (by rfl)).1 (by rfl) (by rfl)

/-! ## C6 -/

/-- Two distinct declaration nodes exported under the one name `e`, both
with an empty reference query. -/
def declE1 : Declaration :=
  { declId := 11, kind := DeclKind.identifier, selfIdent := { text := "e", refs := [] },
    childIdents := [], descendantIdents := [], typeSig := none, hasPublicTag := false }

/-- The second declaration node bound to `e`. -/
def declE2 : Declaration :=
  { declId := 12, kind := DeclKind.identifier, selfIdent := { text := "e", refs := [] },
    childIdents := [], descendantIdents := [], typeSig := none, hasPublicTag := false }

/-- The used non-entry file of the progress fixture. -/
def fileE : SourceFile :=
  { filePath := ["e.ts"], exportedDeclarations := [("e", [declE1, declE2])],
    namespaceRefNodeCount := 0 }

/-- The entry file of the progress fixture. -/
def fileA6 : SourceFile :=
  { filePath := ["a.ts"], exportedDeclarations := [], namespaceRefNodeCount := 0 }

/-- An unused project file. -/
def fileX : SourceFile :=
  { filePath := ["x"], exportedDeclarations := [], namespaceRefNodeCount := 0 }

/-- A second unused project file. -/
def fileY : SourceFile :=
  { filePath := ["y"], exportedDeclarations := [], namespaceRefNodeCount := 0 }

/-- Configuration with progress display on and export analysis enabled. -/
def cfgC6 : Configuration :=
  { cwd := [], isShowProgress := true,
    include' := { files := true, exports := true, types := false, members := false,
                  duplicates := false },
    isReadPublicTag := false }

/-- The final state of the progress fixture run. -/
def stC6 : RunState :=
  { issues :=
      { files := [["x"], ["y"]],
        exports := [(["e.ts"], [("e", { filePath := ["e.ts"], symbol := "e" })])],
        types := [], duplicates := [], members := [] },
    counters :=
      { files := 2, exports := 1, types := 0, duplicates := 0, members := 0,
        processed := 3 },
    renders := [{ counter := 4, total := 3, percentage := 133 }] }

/-- C6 counterexample: a run with two unused files and one used non-entry
file performs a render showing 133 percent: the render counter adds
`unusedProductionFiles.length` to `counters.processed`, which was itself
initialized to the unused-file count, so the claimed bound of 100 fails. -/
theorem C6_counterexample :
    (run cfgC6 [fileA6] [fileA6, fileE] [fileA6, fileE, fileX, fileY]).map
      (fun st => st.renders) =
      Except.ok [{ counter := 4, total := 3, percentage := 133 }] ∧ 100 < 133 :=
  ⟨rfl, by decide⟩

/-- C6 amended: every progress render of a run shows the total
`unusedFileCount + usedNonEntryFileCount` and the floor percentage
`counter * 100 / total`, where the counter is `unusedFileCount` plus the
running processed counter; since the processed counter is initialized to
the (deduplicated) unused-file count rather than zero, every rendered
counter is at least `unusedFileCount + ` that initial value — the unused
files are double-counted and the percentage is not bounded by 100. -/
theorem C6_percentage_formula (cfg : Configuration) (e p pr : List SourceFile) (st : RunState)
    (h : run cfg e p pr = Except.ok st) :
    ∀ r ∈ st.renders,
      r.total = (partitionSourceFiles pr p).2.length +
        (partitionSourceFiles (partitionSourceFiles pr p).1 e).2.length ∧
      r.percentage = r.counter * 100 / r.total ∧
      (partitionSourceFiles pr p).2.length +
        (dedupKeep ((partitionSourceFiles pr p).2.map (fun f => f.filePath))).length ≤
        r.counter := by
  simp only [run] at h
  cases hflag : (cfg.include'.exports || cfg.include'.types ||
      cfg.include'.members || cfg.include'.duplicates) with
  | false =>
    rw [hflag] at h
    simp only [Bool.false_eq_true, if_false] at h
    injection h with h
    subst h
    intro r hr
    simp at hr
  | true =>
    rw [hflag] at h
    simp only [if_true] at h
    have hWF := forEachE_preserve
      (P := rendersWF
        (mkCtx cfg (partitionSourceFiles pr p).2.length
          (partitionSourceFiles (partitionSourceFiles pr p).1 e).2.length)
        (dedupKeep ((partitionSourceFiles pr p).2.map (fun f => f.filePath))).length)
      (fun s a s' hs hP => processFile_rendersWF hs hP)
      _ _ _ h ⟨le_refl _, fun r hr => absurd hr (List.not_mem_nil r)⟩
    exact hWF.2

/-- C6 witness: the 133-percent render of the fixture run satisfies the
amended formula and bound. -/
theorem C6_witness :
    ({ counter := 4, total := 3, percentage := 133 } : ProgressRender).total =
      (partitionSourceFiles [fileA6, fileE, fileX, fileY] [fileA6, fileE]).2.length +
      (partitionSourceFiles
        (partitionSourceFiles [fileA6, fileE, fileX, fileY] [fileA6, fileE]).1
        [fileA6]).2.length ∧
    ({ counter := 4, total := 3, percentage := 133 } : ProgressRender).percentage =
      ({ counter := 4, total := 3, percentage := 133 } : ProgressRender).counter * 100 /
      ({ counter := 4, total := 3, percentage := 133 } : ProgressRender).total ∧
    (partitionSourceFiles [fileA6, fileE, fileX, fileY] [fileA6, fileE]).2.length +
      (dedupKeep ((partitionSourceFiles [fileA6, fileE, fileX, fileY]
        [fileA6, fileE]).2.map (fun f => f.filePath))).length ≤
      ({ counter := 4, total := 3, percentage := 133 } : ProgressRender).counter :=
  C6_percentage_formula cfgC6 [fileA6] [fileA6, fileE] [fileA6, fileE, fileX, fileY] stC6
    (by rfl) { counter := 4, total := 3, percentage := 133 } (List.mem_singleton.mpr rfl)

/-! ## C7 -/

/-- C7: when duplicate detection is enabled, a successful file visit emits
exactly one `duplicates` issue per detected group — the counter grows by
the number of groups and each group (all of size at least two) is stored
under the comma-join of its names in detection order, carrying that ordered
list in `symbols`. -/
theorem C7_duplicate_groups (ctx : Ctx) (st : RunState) (f : SourceFile) (st' : RunState)
    (hdup : ctx.include'.duplicates = true)
    (h : processFile ctx st f = Except.ok st')
    (hinj : (findDuplicateExportedNames f).Pairwise
      (fun g h' => String.intercalate "," g ≠ String.intercalate "," h')) :
    st'.counters.duplicates = st.counters.duplicates + (findDuplicateExportedNames f).length ∧
    ∀ g ∈ findDuplicateExportedNames f, 2 ≤ g.length ∧
      lookup2 st'.issues.duplicates (pathRelative ctx.cwd f.filePath)
          (String.intercalate "," g) =
        some { filePath := f.filePath, symbol := String.intercalate "," g,
               symbolType := none, symbols := some g } := by
  obtain ⟨hmap, hcnt⟩ := processFile_duplicates_frame h
  rw [hdup] at hmap hcnt
  simp only [if_true] at hmap hcnt
  constructor
  · rw [hcnt, dupFold_counter]
  · intro g hg
    refine ⟨?_, ?_⟩
    · have hg2 := hg
      simp only [findDuplicateExportedNames] at hg2
      exact of_decide_eq_true (List.mem_filter.mp hg2).2
    · rw [hmap]
      exact dupFold_lookup_mem ctx f.filePath _ st hinj g hg

/-- One declaration node bound to the two export names `a` and `b`. -/
def declShared : Declaration :=
  { declId := 31, kind := DeclKind.identifier,
    selfIdent := { text := "a", refs := [[["proj", "h.ts"], ["proj", "z.ts"]]] },
    childIdents := [], descendantIdents := [], typeSig := none, hasPublicTag := false }

/-- A file exporting the same declaration under the names `a` and `b`. -/
def fileH : SourceFile :=
  { filePath := ["proj", "h.ts"],
    exportedDeclarations := [("a", [declShared]), ("b", [declShared])],
    namespaceRefNodeCount := 0 }

/-- Configuration with only duplicate detection enabled. -/
def cfgC7 : Configuration :=
  { cwd := ["proj"], isShowProgress := false,
    include' := { files := true, exports := false, types := false, members := false,
                  duplicates := true },
    isReadPublicTag := false }

/-- The state after visiting the duplicate-export file. -/
def stH7 : RunState :=
  { issues :=
      { files := [], exports := [], types := [],
        duplicates := [(["h.ts"],
          [("a,b", { filePath := ["proj", "h.ts"], symbol := "a,b",
                     symbolType := none, symbols := some ["a", "b"] })])],
        members := [] },
    counters :=
      { files := 0, exports := 0, types := 0, duplicates := 1, members := 0,
        processed := 1 },
    renders := [] }

/-- C7 witness: names `a` and `b` bound to one declaration yield exactly
one `duplicates` issue, keyed `a,b` with `symbols = [a, b]`. -/
theorem C7_witness :
    stH7.counters.duplicates =
      stEmpty.counters.duplicates + (findDuplicateExportedNames fileH).length ∧
    (2 ≤ (["a", "b"] : List String).length ∧
      lookup2 stH7.issues.duplicates (pathRelative (mkCtx cfgC7 0 1).cwd fileH.filePath)
          (String.intercalate "," ["a", "b"]) =
        some { filePath := fileH.filePath, symbol := String.intercalate "," ["a", "b"],
               symbolType := none, symbols := some ["a", "b"] }) :=
  ⟨(C7_duplicate_groups (mkCtx cfgC7 0 1) stEmpty fileH stH7 rfl (by rfl)
      (by simp [show findDuplicateExportedNames fileH = [["a", "b"]] from rfl])).1,
   (C7_duplicate_groups (mkCtx cfgC7 0 1) stEmpty fileH stH7 rfl (by rfl)
      (by simp [show findDuplicateExportedNames fileH = [["a", "b"]] from rfl])).2
     ["a", "b"] (by simp [show findDuplicateExportedNames fileH = [["a", "b"]] from rfl])⟩

/-! ## C9 -/

/-- C9: `addIssue(category, issue)` stores the issue at (category,
relative path of its file, its symbol) — the lookup at that key afterwards
returns exactly this issue, whatever was there before, so the last write
wins — increments the counter of that category by one, and modifies no
other category's map or counter, nor the files set, files counter or
processed counter. -/
theorem C9_addIssue_contract (ctx : Ctx) (t : IssueKind) (issue : Issue) (st : RunState) :
    lookup2 ((addIssue ctx t issue st).issues.getMap t)
        (pathRelative ctx.cwd issue.filePath) issue.symbol = some issue ∧
    (addIssue ctx t issue st).counters.get t = st.counters.get t + 1 ∧
    (addIssue ctx t issue st).issues.files = st.issues.files ∧
    (addIssue ctx t issue st).counters.files = st.counters.files ∧
    (addIssue ctx t issue st).counters.processed = st.counters.processed ∧
    (∀ u, u ≠ t → (addIssue ctx t issue st).issues.getMap u = st.issues.getMap u ∧
      (addIssue ctx t issue st).counters.get u = st.counters.get u) := by
  refine ⟨lookup2_addIssue_self .., ?_, addIssue_files .., ?_, addIssue_processed .., ?_⟩
  · rw [addIssue_counters]
    exact get_incr_self st.counters t
  · rw [addIssue_counters]
    exact incr_files st.counters t
  · intro u hu
    refine ⟨addIssue_getMap_other ctx t u issue st hu, ?_⟩
    rw [addIssue_counters]
    exact get_incr_other st.counters hu

/-- An issue used to exercise the aggregator contract. -/
def issueW : Issue := { filePath := ["proj", "w.ts"], symbol := "w" }

/-- C9 witness: adding an `exports` issue stores it under its relative
path and symbol and leaves the `types` map and counter untouched. -/
theorem C9_witness :
    lookup2 ((addIssue (mkCtx cfgC1 0 1) IssueKind.exports issueW stEmpty).issues.getMap
        IssueKind.exports)
      (pathRelative (mkCtx cfgC1 0 1).cwd issueW.filePath) issueW.symbol = some issueW ∧
    ((addIssue (mkCtx cfgC1 0 1) IssueKind.exports issueW stEmpty).issues.getMap
        IssueKind.types = stEmpty.issues.getMap IssueKind.types ∧
      (addIssue (mkCtx cfgC1 0 1) IssueKind.exports issueW stEmpty).counters.get
        IssueKind.types = stEmpty.counters.get IssueKind.types) :=
  ⟨(C9_addIssue_contract (mkCtx cfgC1 0 1) IssueKind.exports issueW stEmpty).1,
   (C9_addIssue_contract (mkCtx cfgC1 0 1) IssueKind.exports issueW stEmpty).2.2.2.2.2
     IssueKind.types (by decide)⟩

/-! ## C10 -/

/-- C10: with all four non-file include flags disabled the per-file loop is
not entered: the returned exports, types, members and duplicates maps are
empty, their counters zero, the files set is exactly the deduplicated
unused production file paths, and the processed counter equals the files
counter. -/
theorem C10_all_disabled (cfg : Configuration) (e p pr : List SourceFile)
    (h1 : cfg.include'.exports = false) (h2 : cfg.include'.types = false)
    (h3 : cfg.include'.members = false) (h4 : cfg.include'.duplicates = false) :
    (run cfg e p pr).map (fun st =>
      (st.issues.exports, st.issues.types, st.issues.members, st.issues.duplicates,
       st.counters.exports, st.counters.types, st.counters.members, st.counters.duplicates,
       st.issues.files, st.counters.processed, st.counters.files)) =
      Except.ok ([], [], [], [], 0, 0, 0, 0,
        dedupKeep ((partitionSourceFiles pr p).2.map (fun f => f.filePath)),
        (dedupKeep ((partitionSourceFiles pr p).2.map (fun f => f.filePath))).length,
        (dedupKeep ((partitionSourceFiles pr p).2.map (fun f => f.filePath))).length) := by
  simp [run, h1, h2, h3, h4, Except.map]

/-- Configuration with every non-file category disabled. -/
def cfgC10 : Configuration :=
  { cwd := ["proj"], isShowProgress := false,
    include' := { files := true, exports := false, types := false, members := false,
                  duplicates := false },
    isReadPublicTag := false }

/-- C10 witness: with all categories disabled, a project with one unused
file reports only that file, and processed equals the files counter. -/
theorem C10_witness :
    (run cfgC10 [fileA] [fileA] [fileA, fileB]).map (fun st =>
      (st.issues.exports, st.issues.types, st.issues.members, st.issues.duplicates,
       st.counters.exports, st.counters.types, st.counters.members, st.counters.duplicates,
       st.issues.files, st.counters.processed, st.counters.files)) =
      Except.ok ([], [], [], [], 0, 0, 0, 0,
        dedupKeep ((partitionSourceFiles [fileA, fileB] [fileA]).2.map (fun f => f.filePath)),
        (dedupKeep ((partitionSourceFiles [fileA, fileB] [fileA]).2.map
          (fun f => f.filePath))).length,
        (dedupKeep ((partitionSourceFiles [fileA, fileB] [fileA]).2.map
          (fun f => f.filePath))).length) :=
  C10_all_disabled cfgC10 [fileA] [fileA] [fileA, fileB] rfl rfl rfl rfl

end Knip
